import Mathlib

/-!
Verification development for the cookie-browser rendering engine
(HTML tokenizer/parser, CSS selector specificity, style resolution,
box-model layout, display-list painter).

The TypeScript sources are shallowly embedded: numbers are modelled as
rationals (ℚ), JS `Map<string,string>` objects and plain style objects
as association lists or `String → Option String` lookup functions, and
the tokenizer's `while` loop as a fuel-indexed recursion (the fuel is
large enough for every terminating run of the source loop; on inputs
where the source loop does not advance `pos` — an unterminated `<` with
no later `>` — the model truncates instead of diverging).

`parseFloat` is modelled on the decimal fragment
`[+-]? (digits [. digits]? | . digits) ([eE] [+-]? digits)?`, parsing the
longest such prefix and returning `none` where JS returns `NaN`.
Branches of `parseLength` that would propagate `NaN` are modelled with
`.getD 0`; every claim below evaluates those branches only on strings
with a numeric prefix, where JS and the model agree.
-/

namespace CookieBrowser

attribute [local semireducible] Rat.mul Rat.add Rat.sub Rat.inv

/-! ## JavaScript string primitives -/

/-- Whitespace test used for `trim`, `\s` in the source regexes, and
`split(/\s+/)`. -/
def isWs (c : Char) : Bool :=
  c = ' ' || c = '\t' || c = '\n' || c = '\r' || c = Char.ofNat 11 || c = Char.ofNat 12

/-- Model of JS `String.prototype.trim` on a character list. -/
def jsTrimList (cs : List Char) : List Char :=
  ((cs.dropWhile isWs).reverse.dropWhile isWs).reverse

/-- Model of JS `String.prototype.trim`. -/
def jsTrim (s : String) : String :=
  ⟨jsTrimList s.data⟩

/-- Lower-case a character list (models `toLowerCase` on the ASCII
tag/attribute names appearing in the source). -/
def lowerList (cs : List Char) : List Char :=
  cs.map Char.toLower

/-- Model of JS `toLowerCase`. -/
def jsLower (s : String) : String :=
  ⟨lowerList s.data⟩

/-- Is `pat` a prefix of `cs`? -/
def isPrefixList : List Char → List Char → Bool
  | [], _ => true
  | _ :: _, [] => false
  | a :: as, b :: bs => a = b && isPrefixList as bs

/-- Model of JS `String.prototype.endsWith`. -/
def jsEndsWith (s suffix : String) : Bool :=
  isPrefixList suffix.data.reverse s.data.reverse

/-- First index `≥ 0` in `cs` where `pat` occurs, scanning left to right. -/
def indexOfAux (pat : List Char) : List Char → Nat → Option Nat
  | [], i => if pat.isEmpty then some i else none
  | c :: rest, i =>
    if isPrefixList pat (c :: rest) then some i else indexOfAux pat rest (i + 1)

/-- Model of JS `String.prototype.indexOf(pat, start)`; `none` models `-1`. -/
def indexOfFrom (cs pat : List Char) (start : Nat) : Option Nat :=
  match indexOfAux pat (cs.drop start) 0 with
  | some j => some (start + j)
  | none => none

/-- Model of JS `slice(a, b)` on a character list. -/
def sliceList (cs : List Char) (a b : Nat) : List Char :=
  (cs.take b).drop a

/-- Model of JS `split(/\s+/)`: splits on maximal whitespace runs; a
leading (resp. trailing) run yields a leading (resp. trailing) empty
string, and `""` splits to `[""]`, as in JS. -/
def jsSplitRunsAux (fuel : Nat) (cs : List Char) (cur : List Char) : List String :=
  match fuel with
  | 0 => [⟨cur.reverse⟩]
  | fuel + 1 =>
    match cs with
    | [] => [⟨cur.reverse⟩]
    | c :: rest =>
      if isWs c then ⟨cur.reverse⟩ :: jsSplitRunsAux fuel (rest.dropWhile isWs) []
      else jsSplitRunsAux fuel rest (c :: cur)

/-- Model of JS `split(/\s+/)`. -/
def jsSplitRuns (s : String) : List String :=
  jsSplitRunsAux (s.data.length + 1) s.data []

/-- Model of JS `split(sep)` for a one-character separator (used by
`parseInlineStyles` for `split(';')`). -/
def jsSplitOnCharAux (sep : Char) (fuel : Nat) (cs : List Char) (cur : List Char) : List String :=
  match fuel with
  | 0 => [⟨cur.reverse⟩]
  | fuel + 1 =>
    match cs with
    | [] => [⟨cur.reverse⟩]
    | c :: rest =>
      if c = sep then ⟨cur.reverse⟩ :: jsSplitOnCharAux sep fuel rest []
      else jsSplitOnCharAux sep fuel rest (c :: cur)

/-- Model of JS `split(sep)` for a one-character separator. -/
def jsSplitOnChar (sep : Char) (s : String) : List String :=
  jsSplitOnCharAux sep (s.data.length + 1) s.data []

/-! ## JavaScript number parsing -/

/-- Digits-to-value accumulator for `parseFloat`. -/
def digitsVal (ds : List Char) : ℤ :=
  ds.foldl (fun acc d => acc * 10 + (d.toNat - '0'.toNat : ℤ)) 0

/-- Model of JS `parseFloat` on the decimal fragment (see the header
note); returns `none` where JS returns `NaN`.  The parsed value
`sign × (int.frac) × 10^exp` is assembled as one exact fraction with
`mkRat`. -/
def jsParseFloat (s : String) : Option ℚ :=
  let cs := s.data.dropWhile isWs
  let (sign, cs) : ℤ × List Char :=
    match cs with
    | '-' :: rest => (-1, rest)
    | '+' :: rest => (1, rest)
    | _ => (1, cs)
  let intDigits := cs.takeWhile Char.isDigit
  let cs := cs.drop intDigits.length
  let (fracDigits, cs) : List Char × List Char :=
    match cs with
    | '.' :: rest => (rest.takeWhile Char.isDigit, rest.drop (rest.takeWhile Char.isDigit).length)
    | _ => ([], cs)
  if intDigits.isEmpty && fracDigits.isEmpty then
    none
  else
    let expVal : ℤ :=
      match cs with
      | e :: rest =>
        if e = 'e' ∨ e = 'E' then
          let (esign, rest) : ℤ × List Char :=
            match rest with
            | '-' :: r => (-1, r)
            | '+' :: r => (1, r)
            | _ => (1, rest)
          let eDigits := rest.takeWhile Char.isDigit
          if eDigits.isEmpty then 0 else esign * digitsVal eDigits
        else 0
      | [] => 0
    let fracScale : ℕ := 10 ^ fracDigits.length
    let mantissaNum : ℤ := digitsVal intDigits * (fracScale : ℤ) + digitsVal fracDigits
    let expNum : ℕ := 10 ^ expVal.toNat
    let expDen : ℕ := 10 ^ (-expVal).toNat
    some (mkRat (sign * mantissaNum * (expNum : ℤ)) (fracScale * expDen))

/-! ## Association-list model of JS `Map<string, string>` -/

/-- Model of `Map.prototype.set` (replaces an existing binding in place,
otherwise appends). -/
def mapSet (m : List (String × String)) (k v : String) : List (String × String) :=
  if m.any (fun p => p.1 = k) then m.map (fun p => if p.1 = k then (k, v) else p)
  else m ++ [(k, v)]

/-- Model of `Map.prototype.get`; `none` models `undefined`. -/
def mapGet (m : List (String × String)) (k : String) : Option String :=
  (m.find? (fun p => p.1 = k)).map (fun p => p.2)

/-! ## CSS selectors and specificity
(src/src/engine/css parser data model and src/src/engine/style/specificity.ts) -/

/-- Selector variant from the CSS parser: `type` together with the
`value` string, and `parts` for compound selectors.  `cls` stands for
the source's `'class'` type (a Lean keyword). -/
inductive Selector where
  | tag (value : String)
  | cls (value : String)
  | id (value : String)
  | universal
  | compound (value : String) (parts : List Selector)
deriving Repr

/-- Specificity triple `(a, b, c)` = (id count, class count, tag count),
components as JS numbers. -/
structure Specificity where
  a : ℤ
  b : ℤ
  c : ℤ
deriving DecidableEq, Repr

/-- Embedding of `calculateSpecificity` (specificity.ts, lines 22–35).
The source `switch` has cases only for `'id'`, `'class'`, `'tag'` and
`'universal'`; a `'compound'` selector therefore falls through to the
`default` arm, which returns `{a: 0, b: 0, c: 0}`. -/
def calculateSpecificity : Selector → Specificity
  | .id _ => ⟨1, 0, 0⟩
  | .cls _ => ⟨0, 1, 0⟩
  | .tag _ => ⟨0, 0, 1⟩
  | .universal => ⟨0, 0, 0⟩
  | .compound _ _ => ⟨0, 0, 0⟩

/-- Embedding of `calculateCombinedSpecificity` (specificity.ts,
lines 41–55): componentwise sum over a rule's selector list. -/
def calculateCombinedSpecificity (selectors : List Selector) : Specificity :=
  selectors.foldl
    (fun acc selector =>
      let spec := calculateSpecificity selector
      ⟨acc.a + spec.a, acc.b + spec.b, acc.c + spec.c⟩)
    ⟨0, 0, 0⟩

/-- Embedding of `compareSpecificity` (specificity.ts, lines 64–75). -/
def compareSpecificity (spec1 spec2 : Specificity) : ℤ :=
  if spec1.a ≠ spec2.a then spec1.a - spec2.a
  else if spec1.b ≠ spec2.b then spec1.b - spec2.b
  else spec1.c - spec2.c

/-- Embedding of `specificityGreaterOrEqual` (specificity.ts,
lines 80–82). -/
def specificityGreaterOrEqual (spec1 spec2 : Specificity) : Bool :=
  decide (compareSpecificity spec1 spec2 ≥ 0)

/-! ## HTML tokenizer (src/src/engine/html/tokenizer.ts) -/

/-- HTML token variant (`TokenType` plus the optional fields actually
populated for each type). -/
inductive Token where
  | startTag (tagName : String) (attributes : List (String × String))
  | endTag (tagName : String)
  | selfClosingTag (tagName : String) (attributes : List (String × String))
  | text (content : String)
  | comment (content : String)
  | doctype (content : String)
deriving DecidableEq, Repr

/-- Embedding of `VOID_ELEMENTS` (tokenizer.ts, lines 22–25). -/
def VOID_ELEMENTS : List String :=
  ["area", "base", "br", "col", "embed", "hr", "img", "input",
   "link", "meta", "param", "source", "track", "wbr"]

/-- Character class `[a-zA-Z_:]` starting an attribute name in the
source's `attrRegex`. -/
def isAttrNameStart (c : Char) : Bool :=
  ('a' ≤ c && c ≤ 'z') || ('A' ≤ c && c ≤ 'Z') || c = '_' || c = ':'

/-- Character class `[-a-zA-Z0-9_:.]` continuing an attribute name. -/
def isAttrNameChar (c : Char) : Bool :=
  isAttrNameStart c || c.isDigit || c = '-' || c = '.'

/-- Character class `[^\s"'=<>` + backtick + `]` of an unquoted
attribute value. -/
def isUnquotedValChar (c : Char) : Bool :=
  !(isWs c || c = '"' || c = '\'' || c = '=' || c = '<' || c = '>' || c = Char.ofNat 96)

/-- Attempt to parse the optional `\s*=\s*("…"|'…'|unquoted)` part of
one attribute match; `none` models the optional regex group matching
empty (the scan then resumes right after the attribute name, which is
what the regex engine's `lastIndex` does). -/
def tryAttrValue (cs : List Char) : Option (String × List Char) :=
  match cs.dropWhile isWs with
  | '=' :: rest =>
    match rest.dropWhile isWs with
    | '"' :: r =>
      match indexOfFrom r ['"'] 0 with
      | some i => some (⟨r.take i⟩, r.drop (i + 1))
      | none => none
    | '\'' :: r =>
      match indexOfFrom r ['\''] 0 with
      | some i => some (⟨r.take i⟩, r.drop (i + 1))
      | none => none
    | r =>
      let run := r.takeWhile isUnquotedValChar
      if run.isEmpty then none else some (⟨run⟩, r.drop run.length)
  | _ => none

/-- Scan modelling the `attrRegex.exec` loop of `parseTagContent`
(tokenizer.ts, lines 136–146): find each attribute-name occurrence,
optionally followed by `= value`, left to right. -/
def scanAttrs (fuel : Nat) (cs : List Char) : List (String × String)
  :=
  match fuel with
  | 0 => []
  | fuel + 1 =>
    match cs with
    | [] => []
    | c :: rest =>
      if isAttrNameStart c then
        let nameRest := rest.takeWhile isAttrNameChar
        let name : List Char := c :: nameRest
        let after := rest.drop nameRest.length
        match tryAttrValue after with
        | some (v, rem) => (⟨lowerList name⟩, v) :: scanAttrs fuel rem
        | none => (⟨lowerList name⟩, "") :: scanAttrs fuel after
      else
        scanAttrs fuel rest

/-- Embedding of `parseTagContent` (tokenizer.ts, lines 125–149). -/
def parseTagContent (content : List Char) : String × List (String × String) :=
  match content.findIdx? (fun c => isWs c) with
  | none => (⟨content⟩, [])
  | some firstSpace =>
    let tagName : String := ⟨content.take firstSpace⟩
    let attrString := jsTrimList (content.drop firstSpace)
    let pairs := scanAttrs (attrString.length + 1) attrString
    (tagName, pairs.foldl (fun m p => mapSet m p.1 p.2) [])

/-- One-pass scan of `tokenize` (tokenizer.ts, lines 27–123), with the
source's `while` loop written as fuel-indexed recursion on the cursor
`pos`. -/
def tokenizeAux (cs : List Char) : Nat → Nat → List Token
  | 0, _ => []
  | fuel + 1, pos =>
    if h : pos < cs.length then
      let textStep : List Token :=
        let textEnd := (indexOfFrom cs ['<'] pos).getD cs.length
        let t := sliceList cs pos textEnd
        if t.isEmpty then tokenizeAux cs fuel textEnd
        else Token.text ⟨t⟩ :: tokenizeAux cs fuel textEnd
      if cs.get ⟨pos, h⟩ = '<' then
        let commentStep : Option (List Token) :=
          if sliceList cs pos (pos + 4) = ['<', '!', '-', '-'] then
            match indexOfFrom cs ['-', '-', '>'] (pos + 4) with
            | some endComment =>
              some (Token.comment ⟨sliceList cs (pos + 4) endComment⟩ ::
                tokenizeAux cs fuel (endComment + 3))
            | none => none
          else none
        match commentStep with
        | some toks => toks
        | none =>
          let doctypeStep : Option (List Token) :=
            if lowerList (sliceList cs pos (pos + 9)) = "<!doctype".data then
              match indexOfFrom cs ['>'] pos with
              | some endDoctype =>
                some (Token.doctype ⟨jsTrimList (sliceList cs (pos + 9) endDoctype)⟩ ::
                  tokenizeAux cs fuel (endDoctype + 1))
              | none => none
            else none
          match doctypeStep with
          | some toks => toks
          | none =>
            let endTagStep : Option (List Token) :=
              if cs.get? (pos + 1) = some '/' then
                match indexOfFrom cs ['>'] pos with
                | some endTag =>
                  some (Token.endTag (jsLower ⟨jsTrimList (sliceList cs (pos + 2) endTag)⟩) ::
                    tokenizeAux cs fuel (endTag + 1))
                | none => none
              else none
            match endTagStep with
            | some toks => toks
            | none =>
              match indexOfFrom cs ['>'] pos with
              | some tagEnd =>
                let tagContent := sliceList cs (pos + 1) tagEnd
                let isSelfClosing := tagContent.getLast? = some '/'
                let cleanContent :=
                  if isSelfClosing then jsTrimList tagContent.dropLast
                  else jsTrimList tagContent
                let parsed := parseTagContent cleanContent
                let lowerTagName := jsLower parsed.1
                let isVoid := VOID_ELEMENTS.contains lowerTagName
                if isSelfClosing || isVoid then
                  Token.selfClosingTag lowerTagName parsed.2 :: tokenizeAux cs fuel (tagEnd + 1)
                else
                  Token.startTag lowerTagName parsed.2 :: tokenizeAux cs fuel (tagEnd + 1)
              | none => textStep
      else
        textStep
    else
      []

/-- Embedding of `tokenize` (tokenizer.ts). -/
def tokenize (html : String) : List Token :=
  tokenizeAux html.data (html.data.length + 1) 0

/-! ## DOM tree and the two HTML parsers
(src/src/engine/html/parser.ts `parse`, and the snapshot's `parseHTML`
in src/unnamed/part_011) -/

/-- DOM node variant.  `element` carries tag name, attribute map and
children; `parent` back-references are not represented (they are
cleared on the returned roots and never used for ownership).  The
`'doctype'` member of parser.ts's `NodeType` union is never constructed
by either parser and is omitted. -/
inductive DOMNode where
  | element (tagName : String) (attributes : List (String × String)) (children : List DOMNode)
  | text (content : String)
  | comment (content : String)
  | document (children : List DOMNode)

/-- Attribute map of a node (non-element nodes carry an empty map in
the source). -/
def DOMNode.attrs : DOMNode → List (String × String)
  | .element _ attributes _ => attributes
  | _ => []

/-- Children list of a node. -/
def DOMNode.childList : DOMNode → List DOMNode
  | .element _ _ children => children
  | .document children => children
  | _ => []

/-- Is the node an element? -/
def DOMNode.isElement : DOMNode → Bool
  | .element _ _ _ => true
  | _ => false

mutual

/-- Does the tree contain a comment node? -/
def containsComment : DOMNode → Bool
  | .comment _ => true
  | .text _ => false
  | .element _ _ children => containsCommentList children
  | .document children => containsCommentList children

/-- Does any tree of the list contain a comment node? -/
def containsCommentList : List DOMNode → Bool
  | [] => false
  | n :: rest => containsComment n || containsCommentList rest

end

/-- An open element (or the document root, `tagName = none`) on the
parser's stack of open elements, with the children appended to it so
far.  In the source the stack holds aliases into the tree being built;
here a frame's node is materialised when the frame is closed. -/
structure Frame where
  tagName : Option String
  attributes : List (String × String)
  children : List DOMNode

/-- The node a closed frame denotes. -/
def Frame.toNode (f : Frame) : DOMNode :=
  match f.tagName with
  | some t => .element t f.attributes f.children
  | none => .document f.children

/-- Append a completed node to the top frame (the current insertion
point, `stack[stack.length - 1]`).  The stack is represented top-first. -/
def pushChild (stack : List Frame) (n : DOMNode) : List Frame :=
  match stack with
  | [] => []
  | f :: rest => { f with children := f.children ++ [n] } :: rest

/-- Close the top frame into the frame below it (the effect, on this
representation, of the element having been appended to its parent's
children when its start tag was processed). -/
def closeTop : List Frame → List Frame
  | f :: g :: rest => { g with children := g.children ++ [f.toNode] } :: rest
  | s => s

/-- Iterate `closeTop`. -/
def applyCloseN : Nat → List Frame → List Frame
  | 0, s => s
  | n + 1, s => applyCloseN n (closeTop s)

/-- End-tag handling shared by both parsers: scan the stack from the
top for a frame with the matching tag name and truncate the stack to
just below it; an end tag with no matching open element is ignored.
(The source scans indices `i > 0` only; the root frame has
`tagName = undefined` and can never match a token's string tag name.) -/
def handleEndTag (tag : String) (stack : List Frame) : List Frame :=
  match stack.findIdx? (fun f => f.tagName = some tag) with
  | some j => applyCloseN (j + 1) stack
  | none => stack

/-- Close the frame `acc` into the next frame below and continue to the
bottom of the stack. -/
def closeAllAux (acc : Frame) : List Frame → Frame
  | [] => acc
  | g :: rest => closeAllAux { g with children := g.children ++ [acc.toNode] } rest

/-- Close every remaining open element into the root frame (in the
source the unclosed elements already sit in their parents' children;
this materialises the same tree). -/
def closeAll : List Frame → Frame
  | [] => ⟨none, [], []⟩
  | f :: rest => closeAllAux f rest

namespace Parser

/-- One token step of `parse` (parser.ts, lines 73–135).  Note the
`'comment'` case (lines 123–128): a comment node is appended to the
current container. -/
def step (stack : List Frame) (token : Token) : List Frame :=
  match token with
  | .startTag tagName attributes => ⟨some tagName, attributes, []⟩ :: stack
  | .selfClosingTag tagName attributes => pushChild stack (.element tagName attributes [])
  | .endTag tagName => handleEndTag tagName stack
  | .text content =>
    let current := stack.head?.getD ⟨none, [], []⟩
    if current.tagName = none ∧ jsTrim content = "" then stack
    else pushChild stack (.text content)
  | .comment content => pushChild stack (.comment content)
  | .doctype _ => stack

/-- Embedding of `parse` (parser.ts, lines 60–147), including the
root-collapsing rule (lines 137–146). -/
def parse (html : String) : DOMNode :=
  let tokens := tokenize html
  let root := closeAll (tokens.foldl step [⟨none, [], []⟩])
  let rootNode := root.toNode
  let elementChildren := root.children.filter (fun c => c.isElement)
  if elementChildren.length = 1 ∧ root.children.length = 1 then
    elementChildren.headD rootNode
  else
    rootNode

/-- Embedding of `parseHTML` (src/src/engine/html/index.ts), an alias
for `parse`. -/
def parseHTML (html : String) : DOMNode :=
  parse html

end Parser

namespace ParserV1

/-- One token step of the snapshot's `parseHTML` (part_011,
lines 60–119).  Comments and doctype tokens are skipped; text is
appended when non-whitespace or when the stack is deeper than the
root. -/
def step (stack : List Frame) (token : Token) : List Frame :=
  match token with
  | .startTag tagName attributes => ⟨some tagName, attributes, []⟩ :: stack
  | .selfClosingTag tagName attributes => pushChild stack (.element tagName attributes [])
  | .endTag tagName => handleEndTag tagName stack
  | .text content =>
    if jsTrim content ≠ "" ∨ stack.length > 1 then pushChild stack (.text content)
    else stack
  | .comment _ => stack
  | .doctype _ => stack

/-- Embedding of the snapshot's `parseHTML` (part_011, lines 57–135),
including its root-collapsing rule. -/
def parseHTML (html : String) : DOMNode :=
  let tokens := tokenize html
  let root := closeAll (tokens.foldl step [⟨none, [], []⟩])
  match root.children with
  | [c] => if c.isElement then c else root.toNode
  | _ => root.toNode

end ParserV1

/-! ## Stylesheet data model (src/src/engine/css parser) -/

/-- A CSS declaration. -/
structure Declaration where
  property : String
  value : String
deriving DecidableEq, Repr

/-- A CSS rule: comma-separated selector list sharing one declaration
list. -/
structure Rule where
  selectors : List Selector
  declarations : List Declaration

/-- A stylesheet: ordered rule list. -/
structure Stylesheet where
  rules : List Rule

/-! ## Selector matching (src/src/engine/style/matcher.ts) -/

mutual

/-- Embedding of `matches` (matcher.ts, lines 12–41), named with a
trailing tick because `matches` is a Lean keyword.  Only elements
match; a compound selector matches when every part matches the same
node.  (The source guards `if (!selector.parts) return false` for a
missing `parts` field; in this model `parts` is always present.) -/
def matches' (node : DOMNode) : Selector → Bool
  | .universal =>
    match node with
    | .element _ _ _ => true
    | _ => false
  | .tag value =>
    match node with
    | .element tagName _ _ => tagName = value
    | _ => false
  | .cls value =>
    match node with
    | .element _ attributes _ =>
      match mapGet attributes "class" with
      | some s => (jsSplitRuns s).contains value
      | none => false
    | _ => false
  | .id value =>
    match node with
    | .element _ attributes _ => mapGet attributes "id" = some value
    | _ => false
  | .compound _ parts =>
    match node with
    | .element _ _ _ => matchesParts node parts
    | _ => false

/-- The `parts.every(part => matches(node, part))` conjunction of the
compound case. -/
def matchesParts (node : DOMNode) : List Selector → Bool
  | [] => true
  | p :: ps => matches' node p && matchesParts node ps

end

/-- Modelled from the spec: the second style-module snapshot's matcher
(exporting `matchesAnySelector`, the form imported by compute.ts) is
not present under src/; per §4.4 and the rule-matching contract, a rule
matches a node when any of its comma-separated selectors matches. -/
def matchesAnySelector (node : DOMNode) (selectors : List Selector) : Bool :=
  selectors.any (fun s => matches' node s)

/-! ## Style computation (src/src/engine/style/compute.ts, the
`calculateCombinedSpecificity`-based version at lines 207–452) -/

/-- Pointwise update of a lookup map (models `Map.prototype.set` where
only `get` is subsequently observed). -/
def setKey {α : Type} (m : String → Option α) (k : String) (v : α) : String → Option α :=
  fun q => if q = k then some v else m q

/-- Stable insertion used to model `Array.prototype.sort` (which is
stable): `x` is placed after every element `y` with `cmp y x ≤ 0`. -/
def insertAfterLe {α : Type} (cmp : α → α → ℤ) (x : α) : List α → List α
  | [] => [x]
  | y :: ys => if cmp y x ≤ 0 then y :: insertAfterLe cmp x ys else x :: y :: ys

/-- Model of the stable `Array.prototype.sort` with a numeric
comparator. -/
def jsSort {α : Type} (cmp : α → α → ℤ) (l : List α) : List α :=
  l.foldl (fun acc x => insertAfterLe cmp x acc) []

namespace Compute

/-- Embedding of `INHERITED_PROPERTIES` (compute.ts, lines 234–249). -/
def INHERITED_PROPERTIES : List String :=
  ["color", "font-family", "font-size", "font-style", "font-weight",
   "line-height", "text-align", "text-decoration", "text-transform",
   "visibility", "white-space", "word-spacing", "letter-spacing", "cursor"]

/-- Embedding of `DEFAULT_STYLES` (compute.ts, lines 254–280). -/
def DEFAULT_STYLES (tag : String) : List (String × String) :=
  match tag with
  | "div" => [("display", "block")]
  | "p" => [("display", "block"), ("margin-top", "1em"), ("margin-bottom", "1em")]
  | "h1" => [("display", "block"), ("font-size", "2em"), ("font-weight", "bold"),
             ("margin-top", "0.67em"), ("margin-bottom", "0.67em")]
  | "h2" => [("display", "block"), ("font-size", "1.5em"), ("font-weight", "bold"),
             ("margin-top", "0.83em"), ("margin-bottom", "0.83em")]
  | "h3" => [("display", "block"), ("font-size", "1.17em"), ("font-weight", "bold"),
             ("margin-top", "1em"), ("margin-bottom", "1em")]
  | "h4" => [("display", "block"), ("font-weight", "bold"),
             ("margin-top", "1.33em"), ("margin-bottom", "1.33em")]
  | "h5" => [("display", "block"), ("font-size", "0.83em"), ("font-weight", "bold"),
             ("margin-top", "1.67em"), ("margin-bottom", "1.67em")]
  | "h6" => [("display", "block"), ("font-size", "0.67em"), ("font-weight", "bold"),
             ("margin-top", "2.33em"), ("margin-bottom", "2.33em")]
  | "ul" => [("display", "block"), ("margin-top", "1em"), ("margin-bottom", "1em"),
             ("padding-left", "40px")]
  | "ol" => [("display", "block"), ("margin-top", "1em"), ("margin-bottom", "1em"),
             ("padding-left", "40px")]
  | "li" => [("display", "list-item")]
  | "span" => [("display", "inline")]
  | "a" => [("display", "inline"), ("color", "blue"), ("text-decoration", "underline")]
  | "strong" => [("display", "inline"), ("font-weight", "bold")]
  | "b" => [("display", "inline"), ("font-weight", "bold")]
  | "em" => [("display", "inline"), ("font-style", "italic")]
  | "i" => [("display", "inline"), ("font-style", "italic")]
  | "img" => [("display", "inline-block")]
  | "br" => [("display", "inline")]
  | "hr" => [("display", "block"), ("margin-top", "0.5em"), ("margin-bottom", "0.5em"),
             ("border-top", "1px solid gray")]
  | _ => []

/-- Embedding of `GLOBAL_DEFAULTS` (compute.ts, lines 285–293). -/
def GLOBAL_DEFAULTS : List (String × String) :=
  [("color", "black"), ("background", "transparent"), ("font-family", "serif"),
   ("font-size", "16px"), ("font-weight", "normal"), ("font-style", "normal"),
   ("display", "inline")]

/-- Resolved styles together with the per-property specificity that set
them (the `styles` and `specificities` maps of `computeNodeStyles`). -/
structure StyleState where
  styles : String → Option String
  specs : String → Option Specificity

/-- Embedding of `getMatchingRules` (compute.ts, lines 303–316). -/
def getMatchingRules (node : DOMNode) (stylesheet : Stylesheet) : List (Rule × Specificity) :=
  stylesheet.rules.filterMap fun rule =>
    if matchesAnySelector node rule.selectors then
      some (rule, calculateCombinedSpecificity rule.selectors)
    else none

/-- Embedding of `applyDeclarations` (compute.ts, lines 321–336): a
declaration is applied when the property has no recorded specificity
yet, or the incoming specificity compares `≥ 0` against the recorded
one. -/
def applyDeclarations (st : StyleState) (declarations : List Declaration)
    (specificity : Specificity) : StyleState :=
  declarations.foldl
    (fun st decl =>
      match st.specs decl.property with
      | none =>
        ⟨setKey st.styles decl.property decl.value, setKey st.specs decl.property specificity⟩
      | some existingSpec =>
        if compareSpecificity specificity existingSpec ≥ 0 then
          ⟨setKey st.styles decl.property decl.value, setKey st.specs decl.property specificity⟩
        else st)
    st

/-- Embedding of `parseInlineStyles` (compute.ts, lines 403–419). -/
def parseInlineStyles (styleAttr : String) : List Declaration :=
  (jsSplitOnChar ';' styleAttr).filterMap fun part =>
    match indexOfFrom part.data [':'] 0 with
    | some colonIndex =>
      let property := jsTrim ⟨part.data.take colonIndex⟩
      let value := jsTrim ⟨part.data.drop (colonIndex + 1)⟩
      if property ≠ "" ∧ value ≠ "" then some ⟨property, value⟩ else none
    | none => none

/-- Phase 1 of `computeNodeStyles` (compute.ts, lines 349–353): global
defaults at specificity `(0, 0, 0)`. -/
def applyGlobalDefaults (st : StyleState) : StyleState :=
  GLOBAL_DEFAULTS.foldl
    (fun st p => ⟨setKey st.styles p.1 p.2, setKey st.specs p.1 ⟨0, 0, 0⟩⟩) st

/-- Phase 2 of `computeNodeStyles` (compute.ts, lines 355–365):
truthy inherited properties copied from the parent's resolved map at
specificity `(0, 0, 0)`. -/
def applyInherited (st : StyleState)
    (parentStyles : Option (String → Option String)) : StyleState :=
  match parentStyles with
  | some ps =>
    INHERITED_PROPERTIES.foldl
      (fun st prop =>
        match ps prop with
        | some parentValue =>
          if parentValue ≠ "" then
            ⟨setKey st.styles prop parentValue, setKey st.specs prop ⟨0, 0, 0⟩⟩
          else st
        | none => st)
      st
  | none => st

/-- Phase 3 of `computeNodeStyles` (compute.ts, lines 367–377): per-tag
browser defaults at specificity `(0, 0, 0)` (guarded by the truthiness
of `node.tagName`). -/
def applyTagDefaults (st : StyleState) (node : DOMNode) : StyleState :=
  match node with
  | .element tagName _ _ =>
    if tagName ≠ "" then
      (DEFAULT_STYLES tagName).foldl
        (fun st p => ⟨setKey st.styles p.1 p.2, setKey st.specs p.1 ⟨0, 0, 0⟩⟩) st
    else st
  | _ => st

/-- Phase 4 of `computeNodeStyles` (compute.ts, lines 379–387): matched
rules sorted by ascending combined specificity (stable sort), each
applied through `applyDeclarations`. -/
def applyMatchedRules (st : StyleState) (node : DOMNode)
    (stylesheet : Stylesheet) : StyleState :=
  let matchedRules := jsSort (fun a b => compareSpecificity a.2 b.2)
    (getMatchingRules node stylesheet)
  matchedRules.foldl (fun st rs => applyDeclarations st rs.1.declarations rs.2) st

/-- Phase 5 of `computeNodeStyles` (compute.ts, lines 389–395): inline
`style` declarations at the synthetic specificity `(1, 0, 0)`. -/
def applyInline (st : StyleState) (node : DOMNode) : StyleState :=
  match mapGet node.attrs "style" with
  | some styleAttr =>
    if styleAttr ≠ "" then
      applyDeclarations st (parseInlineStyles styleAttr) ⟨1, 0, 0⟩
    else st
  | none => st

/-- Embedding of `computeNodeStyles` (compute.ts, lines 341–398):
global defaults, inherited properties, per-tag browser defaults,
matching rules sorted by ascending specificity, and finally inline
`style` declarations at synthetic specificity `(1, 0, 0)`. -/
def computeNodeStyles (node : DOMNode) (stylesheet : Stylesheet)
    (parentStyles : Option (String → Option String)) : String → Option String :=
  let st : StyleState := ⟨fun _ => none, fun _ => none⟩
  let st := applyGlobalDefaults st
  let st := applyInherited st parentStyles
  let st := applyTagDefaults st node
  let st := applyMatchedRules st node stylesheet
  let st := applyInline st node
  st.styles

end Compute

/-- A styled node: the DOM node, its resolved style map, and styled
children (compute.ts `StyledNode`). -/
inductive StyledNode where
  | mk (node : DOMNode) (styles : String → Option String) (children : List StyledNode)

/-- The wrapped DOM node. -/
def StyledNode.node : StyledNode → DOMNode
  | .mk n _ _ => n

/-- The resolved style map. -/
def StyledNode.styles : StyledNode → (String → Option String)
  | .mk _ s _ => s

/-- The styled children. -/
def StyledNode.children : StyledNode → List StyledNode
  | .mk _ _ c => c

mutual

/-- Embedding of `styleNodeRecursive` (compute.ts, lines 428–444):
compute this node's styles, then style every child with them as the
parent map (text and comment nodes have empty children lists). -/
def styleNodeRecursive (node : DOMNode) (stylesheet : Stylesheet)
    (parentStyles : Option (String → Option String)) : StyledNode :=
  let styles := Compute.computeNodeStyles node stylesheet parentStyles
  match node with
  | .element tagName attributes children =>
    .mk (.element tagName attributes children) styles (styleChildren children stylesheet styles)
  | .document children =>
    .mk (.document children) styles (styleChildren children stylesheet styles)
  | .text s => .mk (.text s) styles []
  | .comment s => .mk (.comment s) styles []

/-- The `node.children.map(child => styleNodeRecursive(child,
stylesheet, styles))` recursion of `styleNodeRecursive`. -/
def styleChildren (children : List DOMNode) (stylesheet : Stylesheet)
    (styles : String → Option String) : List StyledNode :=
  match children with
  | [] => []
  | child :: rest =>
    styleNodeRecursive child stylesheet (some styles) :: styleChildren rest stylesheet styles

end

/-- Embedding of `styleTree` (compute.ts, lines 424–426). -/
def styleTree (dom : DOMNode) (stylesheet : Stylesheet) : StyledNode :=
  styleNodeRecursive dom stylesheet none

/-! ## Box model (src/unnamed/part_009, the box module imported by
src/src/engine/layout/block.ts) -/

/-- Rectangle with position and dimensions. -/
structure Rect where
  x : ℚ
  y : ℚ
  width : ℚ
  height : ℚ
deriving DecidableEq, Repr

/-- Edge sizes for margin, padding and border. -/
structure EdgeSizes where
  top : ℚ
  right : ℚ
  bottom : ℚ
  left : ℚ
deriving DecidableEq, Repr

/-- The complete box model for an element. -/
structure BoxDimensions where
  content : Rect
  padding : EdgeSizes
  border : EdgeSizes
  margin : EdgeSizes
deriving DecidableEq, Repr

/-- Embedding of `createEmptyBox` (part_009, lines 42–49). -/
def createEmptyBox : BoxDimensions :=
  ⟨⟨0, 0, 0, 0⟩, ⟨0, 0, 0, 0⟩, ⟨0, 0, 0, 0⟩, ⟨0, 0, 0, 0⟩⟩

/-- Embedding of `paddingBox` (part_009, lines 54–61): content grown by
the padding edges. -/
def paddingBox (box : BoxDimensions) : Rect :=
  ⟨box.content.x - box.padding.left,
   box.content.y - box.padding.top,
   box.content.width + box.padding.left + box.padding.right,
   box.content.height + box.padding.top + box.padding.bottom⟩

/-- Embedding of `borderBox` (part_009, lines 66–74): padding box grown
by the border edges. -/
def borderBox (box : BoxDimensions) : Rect :=
  let pBox := paddingBox box
  ⟨pBox.x - box.border.left,
   pBox.y - box.border.top,
   pBox.width + box.border.left + box.border.right,
   pBox.height + box.border.top + box.border.bottom⟩

/-- Embedding of `marginBox` (part_009, lines 79–87): border box grown
by the margin edges. -/
def marginBox (box : BoxDimensions) : Rect :=
  let bBox := borderBox box
  ⟨bBox.x - box.margin.left,
   bBox.y - box.margin.top,
   bBox.width + box.margin.left + box.margin.right,
   bBox.height + box.margin.top + box.margin.bottom⟩

/-- Embedding of `parseLength` (part_009, lines 93–126).  The source
declares default parameters `containerSize = 0`, `fontSize = 16`;
callers here always pass both.  Note the branch order: the
`endsWith('em')` test precedes the `endsWith('rem')` test, and every
string ending in `"rem"` also ends in `"em"`. -/
def parseLength (value : Option String) (containerSize fontSize : ℚ) : ℚ :=
  match value with
  | none => 0
  | some v0 =>
    if v0 = "" then 0
    else
      let v := jsTrim v0
      if v = "0" ∨ v = "auto" then 0
      else if jsEndsWith v "%" then ((jsParseFloat v).getD 0) / 100 * containerSize
      else if jsEndsWith v "px" then (jsParseFloat v).getD 0
      else if jsEndsWith v "em" then ((jsParseFloat v).getD 0) * fontSize
      else if jsEndsWith v "rem" then ((jsParseFloat v).getD 0) * 16
      else
        match jsParseFloat v with
        | none => 0
        | some num => num

/-- Zero edges. -/
def zeroEdges : EdgeSizes := ⟨0, 0, 0, 0⟩

/-- Embedding of `parseEdges` (part_009, lines 132–165): CSS
margin/padding shorthand with 1, 2, 3 or 4 whitespace-separated
values.  (The empty `parts` arm is unreachable: `split` never returns
an empty array.) -/
def parseEdges (value : Option String) (containerSize fontSize : ℚ) : EdgeSizes :=
  match value with
  | none => zeroEdges
  | some v =>
    if v = "" then zeroEdges
    else
      let parts := jsSplitRuns (jsTrim v)
      match parts with
      | [p1] =>
        let v1 := parseLength (some p1) containerSize fontSize
        ⟨v1, v1, v1, v1⟩
      | [p1, p2] =>
        let vertical := parseLength (some p1) containerSize fontSize
        let horizontal := parseLength (some p2) containerSize fontSize
        ⟨vertical, horizontal, vertical, horizontal⟩
      | [p1, p2, p3] =>
        let top := parseLength (some p1) containerSize fontSize
        let horizontal := parseLength (some p2) containerSize fontSize
        let bottom := parseLength (some p3) containerSize fontSize
        ⟨top, horizontal, bottom, horizontal⟩
      | p1 :: p2 :: p3 :: p4 :: _ =>
        ⟨parseLength (some p1) containerSize fontSize,
         parseLength (some p2) containerSize fontSize,
         parseLength (some p3) containerSize fontSize,
         parseLength (some p4) containerSize fontSize⟩
      | [] => zeroEdges

/-! ## Block layout (src/src/engine/layout/block.ts and
src/src/engine/layout/index.ts) -/

/-- Display type union of `LayoutNode.displayType`. -/
inductive DisplayType where
  | block
  | inline
  | inlineBlock
  | none
deriving DecidableEq, Repr

/-- JS `x || d` on numbers whose falsy case here is `0` (`NaN` is
already mapped to `0` upstream). -/
def jsOrQ (x d : ℚ) : ℚ :=
  if x = 0 then d else x

/-- Embedding of `getDisplayType` (block.ts, lines 29–42), including
the `styles.get('display') || 'inline'` truthiness default. -/
def getDisplayType (styles : String → Option String) : DisplayType :=
  let display :=
    match styles "display" with
    | some s => if s = "" then "inline" else s
    | Option.none => "inline"
  if display = "block" then .block
  else if display = "inline-block" then .inlineBlock
  else if display = "none" then .none
  else .inline

/-- Layout node: styled node, box dimensions, laid-out children and
display type (block.ts `LayoutNode`). -/
inductive LayoutNode where
  | mk (styledNode : StyledNode) (box : BoxDimensions) (children : List LayoutNode)
      (displayType : DisplayType)

/-- The wrapped styled node. -/
def LayoutNode.styledNode : LayoutNode → StyledNode
  | .mk s _ _ _ => s

/-- The computed box. -/
def LayoutNode.box : LayoutNode → BoxDimensions
  | .mk _ b _ _ => b

/-- The laid-out children. -/
def LayoutNode.children : LayoutNode → List LayoutNode
  | .mk _ _ c _ => c

/-- The display type. -/
def LayoutNode.displayType : LayoutNode → DisplayType
  | .mk _ _ _ d => d

/-- Embedding of `calculateBlockWidth` (block.ts, lines 91–142):
resolves the margin/padding shorthands (or the four longhands), the
uniform `border-width`, and the content width (explicit, or auto-fill
floored at `0`). -/
def calculateBlockWidth (box : BoxDimensions) (styles : String → Option String)
    (containingBlock : Rect) (fontSize : ℚ) : BoxDimensions :=
  let containerWidth := containingBlock.width
  let longhandMargin : EdgeSizes :=
    ⟨parseLength (styles "margin-top") containerWidth fontSize,
     parseLength (styles "margin-right") containerWidth fontSize,
     parseLength (styles "margin-bottom") containerWidth fontSize,
     parseLength (styles "margin-left") containerWidth fontSize⟩
  let margin :=
    match styles "margin" with
    | some mv => if mv = "" then longhandMargin else parseEdges (some mv) containerWidth fontSize
    | Option.none => longhandMargin
  let longhandPadding : EdgeSizes :=
    ⟨parseLength (styles "padding-top") containerWidth fontSize,
     parseLength (styles "padding-right") containerWidth fontSize,
     parseLength (styles "padding-bottom") containerWidth fontSize,
     parseLength (styles "padding-left") containerWidth fontSize⟩
  let padding :=
    match styles "padding" with
    | some pv => if pv = "" then longhandPadding else parseEdges (some pv) containerWidth fontSize
    | Option.none => longhandPadding
  let borderWidth := parseLength (styles "border-width") 0 fontSize
  let border : EdgeSizes := ⟨borderWidth, borderWidth, borderWidth, borderWidth⟩
  let contentWidth :=
    match styles "width" with
    | some wv =>
      if wv ≠ "" ∧ wv ≠ "auto" then parseLength (some wv) containerWidth fontSize
      else
        max 0 (containerWidth - (margin.left + margin.right + border.left + border.right +
          padding.left + padding.right))
    | Option.none =>
      max 0 (containerWidth - (margin.left + margin.right + border.left + border.right +
        padding.left + padding.right))
  { box with
    margin := margin
    padding := padding
    border := border
    content := { box.content with width := contentWidth } }

/-- Embedding of `styledNodeHasText` (block.ts, lines 178–181), the
always-false heuristic. -/
def styledNodeHasText (_box : BoxDimensions) : Bool :=
  false

/-- Embedding of `calculateBlockHeight` (block.ts, lines 147–173):
explicit height, or the sum of the children's margin-box heights. -/
def calculateBlockHeight (box : BoxDimensions) (styles : String → Option String)
    (children : List LayoutNode) (fontSize : ℚ) : BoxDimensions :=
  let explicit :=
    match styles "height" with
    | some hv => if hv ≠ "" ∧ hv ≠ "auto" then some (parseLength (some hv) 0 fontSize) else Option.none
    | Option.none => Option.none
  match explicit with
  | some h => { box with content := { box.content with height := h } }
  | Option.none =>
    let totalHeight := children.foldl (fun acc child => acc + (marginBox child.box).height) 0
    let totalHeight :=
      if children.isEmpty ∧ styledNodeHasText box then fontSize * ((12 : ℚ) / 10) else totalHeight
    { box with content := { box.content with height := totalHeight } }

mutual

/-- Embedding of `layoutBlock` (block.ts, lines 47–86): `display:none`
yields an empty box with no children; otherwise width, then position
(content origin offset by left/top margin+border+padding from the
containing block, whose `height` carries the vertical cursor), then
children, then height. -/
def layoutBlock (styledNode : StyledNode) (containingBlock : Rect) : LayoutNode :=
  match styledNode with
  | .mk node styles nodeChildren =>
    let displayType := getDisplayType styles
    if displayType = .none then
      .mk (.mk node styles nodeChildren) createEmptyBox [] .none
    else
      let fontSize := jsOrQ (parseLength (styles "font-size") 0 16) 16
      let box := calculateBlockWidth createEmptyBox styles containingBlock fontSize
      let box :=
        { box with content :=
          { box.content with
            x := containingBlock.x + box.margin.left + box.border.left + box.padding.left
            y := containingBlock.y + containingBlock.height + box.margin.top + box.border.top +
              box.padding.top } }
      let children := layoutChildrenAux nodeChildren box 0
      let box := calculateBlockHeight box styles children fontSize
      .mk (.mk node styles nodeChildren) box children displayType

/-- Embedding of the loop of `layoutChildren` (block.ts, lines 186–228),
with the mutable cursor `currentY` made an explicit argument:
`display:none` children are skipped, block children advance the cursor
by their margin-box height, all other children leave it unchanged. -/
def layoutChildrenAux (children : List StyledNode) (parentBox : BoxDimensions)
    (currentY : ℚ) : List LayoutNode :=
  match children with
  | [] => []
  | child :: rest =>
    let displayType := getDisplayType child.styles
    if displayType = .none then layoutChildrenAux rest parentBox currentY
    else
      let containingBlock : Rect :=
        ⟨parentBox.content.x, parentBox.content.y + currentY, parentBox.content.width, 0⟩
      let childLayout :=
        if displayType = .block then layoutBlock child containingBlock
        else layoutInlineBlock child containingBlock
      let nextY :=
        if displayType = .block then currentY + (marginBox childLayout.box).height
        else currentY
      childLayout :: layoutChildrenAux rest parentBox nextY

/-- Embedding of `layoutInlineBlock` (block.ts, lines 233–294): only the
margin/padding shorthands are consulted (no longhands, no border), the
content origin is offset by left/top margin+padding, width defaults to
`100` and height to `fontSize × 1.2`, then children may grow the
height. -/
def layoutInlineBlock (styledNode : StyledNode) (containingBlock : Rect) : LayoutNode :=
  match styledNode with
  | .mk node styles nodeChildren =>
  let displayType := getDisplayType styles
  let fontSize := jsOrQ (parseLength (styles "font-size") 0 16) 16
  let margin :=
    match styles "margin" with
    | some mv =>
      if mv = "" then zeroEdges else parseEdges (some mv) containingBlock.width fontSize
    | Option.none => zeroEdges
  let padding :=
    match styles "padding" with
    | some pv =>
      if pv = "" then zeroEdges else parseEdges (some pv) containingBlock.width fontSize
    | Option.none => zeroEdges
  let box := { createEmptyBox with margin := margin, padding := padding }
  let box :=
    { box with content :=
      { box.content with
        x := containingBlock.x + box.margin.left + box.padding.left
        y := containingBlock.y + box.margin.top + box.padding.top } }
  let contentWidth :=
    match styles "width" with
    | some wv =>
      if wv ≠ "" ∧ wv ≠ "auto" then parseLength (some wv) containingBlock.width fontSize
      else 100
    | Option.none => 100
  let contentHeight :=
    match styles "height" with
    | some hv =>
      if hv ≠ "" ∧ hv ≠ "auto" then parseLength (some hv) 0 fontSize
      else fontSize * ((12 : ℚ) / 10)
    | Option.none => fontSize * ((12 : ℚ) / 10)
  let box :=
    { box with content := { box.content with width := contentWidth, height := contentHeight } }
  let children := layoutChildrenAux nodeChildren box 0
  let childrenHeight := children.foldl (fun acc child => acc + (marginBox child.box).height) 0
  let box :=
    if childrenHeight > box.content.height then
      { box with content := { box.content with height := childrenHeight } }
    else box
  .mk (.mk node styles nodeChildren) box children displayType

end

/-- Embedding of `layoutTree` (src/src/engine/layout/index.ts,
lines 23–38): the initial containing block is the viewport at height
`0` (the height is determined by content; the viewport height argument
is unused). -/
def layoutTree (styledRoot : StyledNode) (viewportWidth _viewportHeight : ℚ) : LayoutNode :=
  layoutBlock styledRoot ⟨0, 0, viewportWidth, 0⟩

mutual

/-- All nodes of a layout tree (the node itself and, recursively, its
children). -/
def layoutSubnodes (n : LayoutNode) : List LayoutNode :=
  match n with
  | .mk s b children d => .mk s b children d :: layoutSubnodesList children

/-- All nodes of a list of layout trees. -/
def layoutSubnodesList : List LayoutNode → List LayoutNode
  | [] => []
  | c :: rest => layoutSubnodes c ++ layoutSubnodesList rest

end

/-! ## Display-list painter (src/unnamed/part_004) -/

/-- JS `a || b` on optional strings: `undefined` and `""` are falsy. -/
def jsOrStr (a b : Option String) : Option String :=
  match a with
  | some s => if s = "" then b else some s
  | Option.none => b

/-- Paint command record (part_004, lines 9–20): a `type` tag with the
optional geometry/colour/text fields populated per command kind. -/
structure PaintCommand where
  type : String
  x : ℚ
  y : ℚ
  width : Option ℚ := Option.none
  height : Option ℚ := Option.none
  color : Option String := Option.none
  text : Option String := Option.none
  font : Option String := Option.none
  borderWidth : Option ℚ := Option.none
  borderColor : Option String := Option.none
deriving DecidableEq, Repr

/-- The part of a v1 styled node read by the painter: the DOM node and
its resolved style object (a plain string-keyed object in that
snapshot). -/
structure PaintStyled where
  node : DOMNode
  styles : String → Option String

/-- Layout box consumed by the v1 painter.  The snapshot's layout
module defining `LayoutBox` is not itself under src/; the fields are
exactly those accessed by `renderLayoutBox` (part_004) — `styledNode`
(node and styles), `box`, `children` and the `displayType` string of
the spec's LayoutNode. -/
inductive LayoutBox where
  | mk (styledNode : PaintStyled) (box : BoxDimensions) (children : List LayoutBox)
      (displayType : String)

/-- The styled-node part. -/
def LayoutBox.styledNode : LayoutBox → PaintStyled
  | .mk s _ _ _ => s

/-- The computed box. -/
def LayoutBox.box : LayoutBox → BoxDimensions
  | .mk _ b _ _ => b

/-- The children. -/
def LayoutBox.children : LayoutBox → List LayoutBox
  | .mk _ _ c _ => c

/-- The display-type string. -/
def LayoutBox.displayType : LayoutBox → String
  | .mk _ _ _ d => d

/-- The painter's resolved background
(`styles['background-color'] || styles.background`, part_004,
line 145). -/
def resolvedBackground (styles : String → Option String) : Option String :=
  jsOrStr (styles "background-color") (styles "background")

mutual

/-- Embedding of `renderLayoutBox` (part_004, lines 135–209): skip
`display:none`; push the background rect (at the border box), then the
border command, then the text command, then the children's commands. -/
def renderLayoutBox (layoutBox : LayoutBox) : List PaintCommand :=
  match layoutBox with
  | .mk styledNode box children displayType =>
  if displayType = "none" then []
  else
    let styles := styledNode.styles
    let backgroundCmds : List PaintCommand :=
      match resolvedBackground styles with
      | some backgroundColor =>
        if backgroundColor ≠ "" ∧ backgroundColor ≠ "transparent" then
          let bBox := borderBox box
          [{ type := "rect", x := bBox.x, y := bBox.y, width := some bBox.width,
             height := some bBox.height, color := some backgroundColor }]
        else []
      | Option.none => []
    let borderCmds : List PaintCommand :=
      match styles "border" with
      | some borderStyle =>
        if borderStyle ≠ "" ∧ borderStyle ≠ "none" then
          let borderParts := jsSplitRuns borderStyle
          let borderWidth := jsOrQ ((jsParseFloat (borderParts.headD "")).getD 0) 1
          let borderColor :=
            (jsOrStr (borderParts.get? 2) (jsOrStr (borderParts.get? 1) (some "black"))).getD
              "black"
          let bBox := borderBox box
          [{ type := "border", x := bBox.x, y := bBox.y, width := some bBox.width,
             height := some bBox.height, borderWidth := some borderWidth,
             borderColor := some borderColor }]
        else []
      | Option.none => []
    let textCmds : List PaintCommand :=
      match styledNode.node with
      | .text content =>
        if jsTrim content ≠ "" then
          let color := (jsOrStr (styles "color") (some "black")).getD "black"
          let fontSize := (jsOrStr (styles "font-size") (some "16px")).getD "16px"
          let fontFamily := (jsOrStr (styles "font-family") (some "serif")).getD "serif"
          let fontWeight := (jsOrStr (styles "font-weight") (some "normal")).getD "normal"
          let fontStyle := (jsOrStr (styles "font-style") (some "normal")).getD "normal"
          let font := fontStyle ++ " " ++ fontWeight ++ " " ++ fontSize ++ " " ++ fontFamily
          let fontSizeNum := jsOrQ ((jsParseFloat fontSize).getD 0) 16
          let textY := box.content.y + fontSizeNum * ((8 : ℚ) / 10)
          [{ type := "text", x := box.content.x, y := textY, text := some content,
             color := some color, font := some font }]
        else []
      | _ => []
    backgroundCmds ++ borderCmds ++ textCmds ++ renderChildren children

/-- The `for (const child of layoutBox.children) renderLayoutBox(child,
commands)` loop: children's commands concatenated in order. -/
def renderChildren : List LayoutBox → List PaintCommand
  | [] => []
  | child :: rest => renderLayoutBox child ++ renderChildren rest

end

/-- Embedding of `buildDisplayList` (part_004, lines 124–130). -/
def buildDisplayList (layoutBox : LayoutBox) : List PaintCommand :=
  renderLayoutBox layoutBox

/-! ## Derived views used in the statements below -/

/-- The value of the last declaration for property `p` in a declaration
list (in `applyDeclarations`, later declarations of equal specificity
overwrite earlier ones, so this is the surviving inline value). -/
def lastDeclValue : List Declaration → String → Option String
  | [], _ => Option.none
  | d :: ds, p =>
    match lastDeclValue ds p with
    | some v => some v
    | Option.none => if d.property = p then some d.value else Option.none

/-- Every per-property specificity recorded in the state compares `≤ σ`
(equivalently, `σ` wins ties-or-better against all of them). -/
def specsAtMost (st : Compute.StyleState) (σ : Specificity) : Prop :=
  ∀ q s, st.specs q = some s → compareSpecificity σ s ≥ 0

/-- No frame on the parser stack holds a comment node among its
accumulated children. -/
def CleanStack (stack : List Frame) : Prop :=
  ∀ f ∈ stack, containsCommentList f.children = false

/-- Rectangle containment: `inner` lies inside `outer`. -/
def rectContains (outer inner : Rect) : Prop :=
  outer.x ≤ inner.x ∧ outer.y ≤ inner.y ∧
  inner.x + inner.width ≤ outer.x + outer.width ∧
  inner.y + inner.height ≤ outer.y + outer.height

/-- All twelve padding/border/margin edge sizes of a box are
non-negative. -/
def nonNegEdges (b : BoxDimensions) : Prop :=
  0 ≤ b.padding.top ∧ 0 ≤ b.padding.right ∧ 0 ≤ b.padding.bottom ∧ 0 ≤ b.padding.left ∧
  0 ≤ b.border.top ∧ 0 ≤ b.border.right ∧ 0 ≤ b.border.bottom ∧ 0 ≤ b.border.left ∧
  0 ≤ b.margin.top ∧ 0 ≤ b.margin.right ∧ 0 ≤ b.margin.bottom ∧ 0 ≤ b.margin.left

/-- The box-model nesting invariant: content inside padding box inside
border box inside margin box. -/
def boxNested (b : BoxDimensions) : Prop :=
  rectContains (paddingBox b) b.content ∧
  rectContains (borderBox b) (paddingBox b) ∧
  rectContains (marginBox b) (borderBox b)

instance (outer inner : Rect) : Decidable (rectContains outer inner) := by
  unfold rectContains; infer_instance

instance (b : BoxDimensions) : Decidable (nonNegEdges b) := by
  unfold nonNegEdges; infer_instance

instance (b : BoxDimensions) : Decidable (boxNested b) := by
  unfold boxNested; infer_instance

/-- The rectangle of a geometric paint command, when both extents are
present. -/
def commandRect (c : PaintCommand) : Option Rect :=
  match c.width, c.height with
  | some w, some h => some ⟨c.x, c.y, w, h⟩
  | _, _ => Option.none

/-- The top inset (`margin.top + padding.top`, shorthand properties
only) that `layoutInlineBlock` adds between its containing block and
its content origin. -/
def inlineTopOffset (s : StyledNode) (containerWidth : ℚ) : ℚ :=
  let styles := StyledNode.styles s
  let fontSize := jsOrQ (parseLength (styles "font-size") 0 16) 16
  let margin :=
    match styles "margin" with
    | some mv => if mv = "" then zeroEdges else parseEdges (some mv) containerWidth fontSize
    | Option.none => zeroEdges
  let padding :=
    match styles "padding" with
    | some pv => if pv = "" then zeroEdges else parseEdges (some pv) containerWidth fontSize
    | Option.none => zeroEdges
  margin.top + padding.top

/-! ## Concrete fixtures for the claims -/

/-- C2 counterexample input: a `div` with `id="main"` and inline
`style="color: blue"`. -/
def C2dom : DOMNode := .element "div" [("id", "main"), ("style", "color: blue")] []

/-- C2 counterexample stylesheet: one rule `#main, #other { color: red }`
whose combined specificity sums to `(2, 0, 0)`. -/
def C2sheet : Stylesheet := ⟨[⟨[.id "main", .id "other"], [⟨"color", "red"⟩]⟩]⟩

/-- C2 witness input: a `div` with two inline `color` declarations. -/
def C2wdom : DOMNode :=
  .element "div" [("id", "main"), ("class", "h"), ("style", "color: blue; color: purple")] []

/-- C2 witness stylesheet: `.h { color: red } #main { color: green }`,
every rule of combined specificity `≤ (1, 0, 0)`. -/
def C2wsheet : Stylesheet :=
  ⟨[⟨[.cls "h"], [⟨"color", "red"⟩]⟩, ⟨[.id "main"], [⟨"color", "green"⟩]⟩]⟩

/-- C5 fixture: a block-level layout box with background-color `red`,
padding `5` and border `2` on every side. -/
def C5lb : LayoutBox :=
  .mk ⟨.element "div" [] [], fun k => if k = "background-color" then some "red" else Option.none⟩
    ⟨⟨10, 10, 100, 50⟩, ⟨5, 5, 5, 5⟩, ⟨2, 2, 2, 2⟩, ⟨0, 0, 0, 0⟩⟩ [] "block"

/-- C7 counterexample fixture: a styled `div` with `margin: -10px`. -/
def C7s : StyledNode :=
  .mk (.element "div" [] []) (fun k => if k = "margin" then some "-10px" else Option.none) []

/-- C7 witness fixture: a styled `div` with no styles at all. -/
def C7ws : StyledNode := .mk (.element "div" [] []) (fun _ => Option.none) []

/-- C9 witness fixture: a styled `div` with
`width:100px; padding:10px; margin:5px` and no border. -/
def C9s : StyledNode :=
  .mk (.element "div" [] [])
    (fun k =>
      if k = "width" then some "100px"
      else if k = "padding" then some "10px"
      else if k = "margin" then some "5px"
      else Option.none) []

/-- C10 witness fixture: an inline-block `span` with `margin: 4px`. -/
def C10a : StyledNode :=
  .mk (.element "span" [] [])
    (fun k =>
      if k = "margin" then some "4px"
      else if k = "display" then some "inline-block"
      else Option.none) []

/-- C10 witness parent box: content `800` wide at the origin. -/
def C10parent : BoxDimensions := ⟨⟨0, 0, 800, 0⟩, ⟨0, 0, 0, 0⟩, ⟨0, 0, 0, 0⟩, ⟨0, 0, 0, 0⟩⟩

/-! ## Theorems -/

/-- C1: For every compound selector (e.g. `div.container`), the claim
says `calculateSpecificity` returns the componentwise sum of the parts'
specificities — here `(0, 1, 1)`, as the repo's own test
`compound selector sums specificity` also expects.  The code's `switch`
has no `'compound'` case and falls through to `default`, returning
`(0, 0, 0)`: evaluating the code at the failing input exhibits the
divergence. -/
theorem C1_compound_specificity_eval :
    calculateSpecificity (.compound "div.container" [.tag "div", .cls "container"]) = ⟨0, 0, 0⟩ ∧
    calculateCombinedSpecificity [.tag "div", .cls "container"] = ⟨0, 1, 1⟩ ∧
    (⟨0, 0, 0⟩ : Specificity) ≠ ⟨0, 1, 1⟩ := by
  decide

/-- C3: The claim says a selector containing at least one id outranks
(under `compareSpecificity` of the `calculateSpecificity` triples) any
selector with zero ids.  For the compound selector `div#main` (one id)
against the class selector `.highlight` (zero ids), the code compares
`(0,0,0)` against `(0,1,0)` — because `calculateSpecificity` maps every
compound to `(0,0,0)` — and the id-containing selector loses. -/
theorem C3_id_compound_loses_to_class :
    compareSpecificity
      (calculateSpecificity (.compound "div#main" [.tag "div", .id "main"]))
      (calculateSpecificity (.cls "highlight")) < 0 := by
  decide

/-- C4: The claim says `"<n>rem"` parses to `n × 16` independent of the
node font-size.  In `parseLength` the `endsWith('em')` test precedes
the `endsWith('rem')` test and every string ending in `"rem"` also ends
in `"em"`, so `"2rem"` at font-size `20` evaluates to `2 × 20 = 40`,
not `2 × 16 = 32`; the `rem` branch (and its `16px` root-size comment)
is unreachable. -/
theorem C4_rem_multiplies_font_size :
    parseLength (some "2rem") 0 20 = 40 ∧ (40 : ℚ) ≠ 2 * 16 := by
  decide

/-- C6 counterexample: the claim says the tree returned by `parseHTML`
never contains a comment node, but `parse` (parser.ts, lines 123–128)
appends comment tokens to the current container, so parsing
`"<!--c--><div>x</div>"` yields a document whose children include the
comment node. -/
theorem C6_counterexample :
    containsComment (Parser.parseHTML "<!--c--><div>x</div>") = true := by
  decide

/-- C2 counterexample: the element of `C2dom` carries inline
`style="color: blue"`, yet the resolved `color` is the rule's `red`:
the rule `#main, #other` has combined specificity `(2, 0, 0)`, which
beats the synthetic inline specificity `(1, 0, 0)` in
`applyDeclarations`. -/
theorem C2_counterexample :
    (styleTree C2dom C2sheet).styles "color" = some "red" ∧
    (styleTree C2dom C2sheet).styles "color" ≠ some "blue" := by
  decide

/-- C5 counterexample: for the layout box `C5lb` (non-transparent
background, border width `2`), the background rect emitted first by
`buildDisplayList` has the geometry of the border box, not of the
padding box. -/
theorem C5_counterexample :
    ((buildDisplayList C5lb).head?.bind commandRect) = some (borderBox (LayoutBox.box C5lb)) ∧
    ((buildDisplayList C5lb).head?.bind commandRect) ≠ some (paddingBox (LayoutBox.box C5lb)) := by
  decide

/-- C7 counterexample: laying out `C7s` (`margin: -10px`) in an
`800`-wide containing block produces a box whose margin box does not
contain its border box — parsed lengths are not clamped to be
non-negative. -/
theorem C7_counterexample :
    ¬ rectContains (marginBox (LayoutNode.box (layoutBlock C7s ⟨0, 0, 800, 0⟩)))
        (borderBox (LayoutNode.box (layoutBlock C7s ⟨0, 0, 800, 0⟩))) := by
  decide

/-- Pointwise form of the nesting invariant: any box with non-negative
edge sizes has nested content/padding/border/margin rectangles. -/
theorem boxNested_of_nonNegEdges (b : BoxDimensions) (h : nonNegEdges b) : boxNested b := by
  obtain ⟨hpt, hpr, hpb, hpl, hbt, hbr, hbb, hbl, hmt, hmr, hmb, hml⟩ := h
  unfold boxNested rectContains
  simp only [paddingBox, borderBox, marginBox]
  refine ⟨⟨?_, ?_, ?_, ?_⟩, ⟨?_, ?_, ?_, ?_⟩, ⟨?_, ?_, ?_, ?_⟩⟩ <;> linarith

/-- Every layout node is among its own subnodes. -/
theorem self_mem_layoutSubnodes (n : LayoutNode) : n ∈ layoutSubnodes n := by
  cases n with
  | mk s b c d => simp [layoutSubnodes]

/-- C7 (amended): for every node of every layout tree produced by
`layoutTree`/`layoutBlock`, if the node's box has non-negative
padding/border/margin edge sizes then the four rectangles are nested:
content inside `paddingBox`, inside `borderBox`, inside `marginBox`
(the unamended claim fails because parsed lengths are not clamped, see
the counterexample with `margin: -10px`). -/
theorem C7_nested_of_nonneg (styledRoot : StyledNode) (viewportWidth viewportHeight : ℚ)
    (n : LayoutNode)
    (_hmem : n ∈ layoutSubnodes (layoutTree styledRoot viewportWidth viewportHeight))
    (h : nonNegEdges (LayoutNode.box n)) : boxNested (LayoutNode.box n) :=
  boxNested_of_nonNegEdges _ h

/-- C7 witness: the style-free `div` laid out in an `800×600` viewport
has non-negative edges, and the amended theorem applies to the root of
its layout tree. -/
theorem C7_witness :
    nonNegEdges (LayoutNode.box (layoutTree C7ws 800 600)) ∧
    boxNested (LayoutNode.box (layoutTree C7ws 800 600)) :=
  ⟨by decide,
   C7_nested_of_nonneg C7ws 800 600 (layoutTree C7ws 800 600)
     (self_mem_layoutSubnodes _) (by decide)⟩

/-- C5 (amended): whenever a layout box is not `display:none` and its
resolved background (`background-color || background`) is a truthy
value other than `'transparent'`, the first command emitted by
`buildDisplayList` is a `rect` with that colour whose geometry is
exactly the node's border box (the unamended claim said padding box;
see the counterexample). -/
theorem C5_background_at_border_box (lb : LayoutBox) (c : String)
    (hdisp : LayoutBox.displayType lb ≠ "none")
    (hbg : resolvedBackground (LayoutBox.styledNode lb).styles = some c)
    (hne : c ≠ "") (htr : c ≠ "transparent") :
    (buildDisplayList lb).head? =
      some { type := "rect", x := (borderBox (LayoutBox.box lb)).x,
             y := (borderBox (LayoutBox.box lb)).y,
             width := some (borderBox (LayoutBox.box lb)).width,
             height := some (borderBox (LayoutBox.box lb)).height,
             color := some c } := by
  obtain ⟨styledNode, box, children, displayType⟩ := lb
  simp only [LayoutBox.displayType] at hdisp
  simp only [LayoutBox.styledNode] at hbg
  simp only [LayoutBox.box]
  unfold buildDisplayList renderLayoutBox
  rw [if_neg hdisp]
  simp [hbg, hne, htr]

/-- C5 witness: the amended theorem applied to the concrete box `C5lb`
(background `red`, border width `2`). -/
theorem C5_witness :
    (buildDisplayList C5lb).head? =
      some { type := "rect", x := (borderBox (LayoutBox.box C5lb)).x,
             y := (borderBox (LayoutBox.box C5lb)).y,
             width := some (borderBox (LayoutBox.box C5lb)).width,
             height := some (borderBox (LayoutBox.box C5lb)).height,
             color := some "red" } :=
  C5_background_at_border_box C5lb "red" (by decide) (by decide) (by decide) (by decide)

/-- A list is comment-free iff all its trees are. -/
theorem containsCommentList_eq_false_iff {l : List DOMNode} :
    containsCommentList l = false ↔ ∀ n ∈ l, containsComment n = false := by
  induction l with
  | nil => simp [containsCommentList]
  | cons n rest ih => simp [containsCommentList, ih]

/-- Comment-freedom distributes over append. -/
theorem containsCommentList_append {l1 l2 : List DOMNode} :
    containsCommentList (l1 ++ l2) = (containsCommentList l1 || containsCommentList l2) := by
  induction l1 with
  | nil => simp [containsCommentList]
  | cons n rest ih => simp [containsCommentList, ih, Bool.or_assoc]

/-- Appending a comment-free node preserves stack cleanliness. -/
theorem cleanStack_pushChild {stack : List Frame} {n : DOMNode} (h : CleanStack stack)
    (hn : containsComment n = false) : CleanStack (pushChild stack n) := by
  cases stack with
  | nil => intro f hf; simp [pushChild] at hf
  | cons f rest =>
    intro g hg
    simp only [pushChild, List.mem_cons] at hg
    rcases hg with hg | hg
    · subst hg
      simp only [containsCommentList_append]
      have h1 : containsCommentList f.children = false := h f (by simp)
      simp [h1, containsCommentList, hn]
    · exact h g (by simp [hg])

/-- A clean frame closes into a comment-free node. -/
theorem containsComment_toNode {f : Frame} (h : containsCommentList f.children = false) :
    containsComment f.toNode = false := by
  obtain ⟨tagName, attributes, children⟩ := f
  cases tagName <;> simpa [Frame.toNode, containsComment] using h

/-- Closing the top frame preserves stack cleanliness. -/
theorem cleanStack_closeTop {s : List Frame} (h : CleanStack s) : CleanStack (closeTop s) := by
  match s with
  | [] => exact h
  | [f] => exact h
  | f :: g :: rest =>
    intro x hx
    simp only [closeTop, List.mem_cons] at hx
    rcases hx with hx | hx
    · subst hx
      simp only [containsCommentList_append]
      have h1 : containsCommentList g.children = false := h g (by simp)
      have h2 : containsComment f.toNode = false := containsComment_toNode (h f (by simp))
      simp [h1, h2, containsCommentList]
    · exact h x (by simp [hx])

/-- Iterated closing preserves stack cleanliness. -/
theorem cleanStack_applyCloseN {n : Nat} {s : List Frame} (h : CleanStack s) :
    CleanStack (applyCloseN n s) := by
  induction n generalizing s with
  | zero => exact h
  | succ k ih => exact ih (cleanStack_closeTop h)

/-- End-tag handling preserves stack cleanliness. -/
theorem cleanStack_handleEndTag {tag : String} {s : List Frame} (h : CleanStack s) :
    CleanStack (handleEndTag tag s) := by
  unfold handleEndTag
  cases s.findIdx? (fun f => f.tagName = some tag) with
  | none => exact h
  | some j => exact cleanStack_applyCloseN h

/-- One step of the part_011 parser preserves stack cleanliness (the
comment case appends nothing). -/
theorem cleanStack_stepV1 {stack : List Frame} {token : Token} (h : CleanStack stack) :
    CleanStack (ParserV1.step stack token) := by
  cases token with
  | startTag t a =>
    intro f hf
    simp only [ParserV1.step, List.mem_cons] at hf
    rcases hf with hf | hf
    · subst hf; simp [containsCommentList]
    · exact h f hf
  | selfClosingTag t a => exact cleanStack_pushChild h (by simp [containsComment, containsCommentList])
  | endTag t => exact cleanStack_handleEndTag h
  | text c =>
    simp only [ParserV1.step]
    split
    · exact cleanStack_pushChild h (by simp [containsComment])
    · exact h
  | comment c => exact h
  | doctype c => exact h

/-- Folding the part_011 parser over any token list preserves stack
cleanliness. -/
theorem cleanStack_foldlV1 {tokens : List Token} {stack : List Frame} (h : CleanStack stack) :
    CleanStack (tokens.foldl ParserV1.step stack) := by
  induction tokens generalizing stack with
  | nil => exact h
  | cons t ts ih => exact ih (cleanStack_stepV1 h)

/-- Closing a clean accumulator through a clean stack yields a clean
frame. -/
theorem containsCommentList_closeAllAux {rest : List Frame} :
    ∀ {acc : Frame}, containsCommentList acc.children = false → CleanStack rest →
      containsCommentList (closeAllAux acc rest).children = false := by
  induction rest with
  | nil => intro acc hacc _; exact hacc
  | cons g rs ih =>
    intro acc hacc h
    apply ih
    · simp only [containsCommentList_append]
      have h1 : containsCommentList g.children = false := h g (by simp)
      have h2 : containsComment acc.toNode = false := containsComment_toNode hacc
      simp [h1, h2, containsCommentList]
    · intro f hf; exact h f (by simp [hf])

/-- Closing a clean stack yields a clean root frame. -/
theorem containsCommentList_closeAll {s : List Frame} (h : CleanStack s) :
    containsCommentList (closeAll s).children = false := by
  cases s with
  | nil => simp [closeAll, containsCommentList]
  | cons f rest =>
    exact containsCommentList_closeAllAux (h f (by simp)) (fun g hg => h g (by simp [hg]))

/-- C6 (amended): for every input HTML string, the tree returned by the
part_011 `parseHTML` contains no comment node — its comment case drops
the token (the unamended claim fails for the parser.ts `parse`, which
appends comment nodes; see the counterexample). -/
theorem C6_no_comment_nodes (html : String) :
    containsComment (ParserV1.parseHTML html) = false := by
  simp only [ParserV1.parseHTML]
  have hinit : CleanStack [(⟨none, [], []⟩ : Frame)] := by
    intro f hf
    simp only [List.mem_singleton] at hf
    subst hf
    simp [containsCommentList]
  have hroot := containsCommentList_closeAll
    (@cleanStack_foldlV1 (tokenize html) [⟨none, [], []⟩] hinit)
  split
  next c heq =>
    split
    · exact (containsCommentList_eq_false_iff.mp hroot) c (by rw [heq]; simp)
    · exact containsComment_toNode hroot
  next heq =>
    exact containsComment_toNode hroot

/-- Pixel lengths ignore both the container size and the font size. -/
theorem parseLength_100px (cw fs : ℚ) : parseLength (some "100px") cw fs = 100 := rfl

/-- A missing length parses to `0`. -/
theorem parseLength_none (cw fs : ℚ) : parseLength Option.none cw fs = 0 := rfl

/-- The one-value pixel shorthand `10px` gives every edge `10`. -/
theorem parseEdges_10px (cw fs : ℚ) : parseEdges (some "10px") cw fs = ⟨10, 10, 10, 10⟩ := rfl

/-- The one-value pixel shorthand `5px` gives every edge `5`. -/
theorem parseEdges_5px (cw fs : ℚ) : parseEdges (some "5px") cw fs = ⟨5, 5, 5, 5⟩ := rfl

/-- The one-value pixel shorthand `4px` gives every edge `4`. -/
theorem parseEdges_4px (cw fs : ℚ) : parseEdges (some "4px") cw fs = ⟨4, 4, 4, 4⟩ := rfl

/-- `calculateBlockHeight` only changes the content height, so the
margin-box width is unchanged. -/
theorem marginBox_width_calculateBlockHeight (b : BoxDimensions)
    (st : String → Option String) (ch : List LayoutNode) (f : ℚ) :
    (marginBox (calculateBlockHeight b st ch f)).width = (marginBox b).width := by
  simp only [calculateBlockHeight]
  split <;> simp [marginBox, borderBox, paddingBox]

/-- C9: A styled node whose resolved styles are `width:100px`,
`padding:10px`, `margin:5px`, no border (and no explicit `display`),
laid out by `layoutBlock` inside any containing block, gets a margin
box of width `100 + 2×10 + 2×5 = 130`: the single-value shorthand
applies the same length to all four edges. -/
theorem C9_margin_box_width (s : StyledNode) (cb : Rect)
    (hw : StyledNode.styles s "width" = some "100px")
    (hp : StyledNode.styles s "padding" = some "10px")
    (hm : StyledNode.styles s "margin" = some "5px")
    (hb : StyledNode.styles s "border-width" = Option.none)
    (hd : StyledNode.styles s "display" = Option.none) :
    (marginBox (LayoutNode.box (layoutBlock s cb))).width = 130 := by
  obtain ⟨node, styles, children⟩ := s
  simp only [StyledNode.styles] at hw hp hm hb hd
  have hdt : getDisplayType styles = .inline := by
    simp only [getDisplayType, hd]; rfl
  have hcw : ∀ (box : BoxDimensions) (fs : ℚ),
      calculateBlockWidth box styles cb fs =
        ⟨⟨box.content.x, box.content.y, 100, box.content.height⟩,
         ⟨10, 10, 10, 10⟩, ⟨0, 0, 0, 0⟩, ⟨5, 5, 5, 5⟩⟩ := by
    intro box fs
    simp only [calculateBlockWidth, hm, hp, hb, hw, parseEdges_5px, parseEdges_10px,
      parseLength_none, parseLength_100px]
    simp
  unfold layoutBlock
  rw [hdt]
  simp only [show (DisplayType.inline = DisplayType.none) = False by simp, if_false]
  rw [hcw]
  simp only [LayoutNode.box]
  rw [marginBox_width_calculateBlockHeight]
  simp [marginBox, borderBox, paddingBox]
  norm_num

/-- C9 witness: the theorem applied to the concrete fixture `C9s` in an
`800×600` containing block. -/
theorem C9_witness :
    (marginBox (LayoutNode.box (layoutBlock C9s ⟨0, 0, 800, 600⟩))).width = 130 :=
  C9_margin_box_width C9s ⟨0, 0, 800, 600⟩ (by decide) (by decide) (by decide) (by decide)
    (by decide)

/-- C8: `parseHTML('<div>Content</div></div></div>')` returns (rather
than throwing — the embedded parser is a total function by
construction) the element `div` whose only child is the text node
`Content`: the two unmatched end tags find no open element on the stack
and are silently dropped. -/
theorem C8_lenient_recovery :
    Parser.parseHTML "<div>Content</div></div></div>" = .element "div" [] [.text "Content"] :=
  rfl

/-- Content-origin law of `layoutInlineBlock`: the content starts at
the containing block's y plus the node's top margin+padding inset. -/
theorem layoutInlineBlock_content_y (s : StyledNode) (cb : Rect) :
    (LayoutNode.box (layoutInlineBlock s cb)).content.y = cb.y + inlineTopOffset s cb.width := by
  obtain ⟨node, styles, children⟩ := s
  unfold layoutInlineBlock inlineTopOffset
  simp only [StyledNode.styles, LayoutNode.box]
  simp only [apply_ite (fun b : BoxDimensions => b.content), apply_ite (fun r : Rect => r.y)]
  simp
  ring

/-- C10: In `layoutChildren` the vertical cursor advances only after
`display:block` children, so two consecutive children with non-block,
non-none display types (`inline` or `inline-block`; `list-item` maps to
`inline`) receive containing blocks at the same y, and with equal top
margin+padding insets their content boxes start at the same vertical
position `pb.content.y + currentY + inset` — they overlap instead of
stacking. -/
theorem C10_consecutive_inline_same_y (c1 c2 : StyledNode) (rest : List StyledNode)
    (pb : BoxDimensions) (y : ℚ)
    (h1 : getDisplayType (StyledNode.styles c1) = .inline ∨
      getDisplayType (StyledNode.styles c1) = .inlineBlock)
    (h2 : getDisplayType (StyledNode.styles c2) = .inline ∨
      getDisplayType (StyledNode.styles c2) = .inlineBlock)
    (hoff : inlineTopOffset c1 pb.content.width = inlineTopOffset c2 pb.content.width) :
    ((layoutChildrenAux (c1 :: c2 :: rest) pb y).map
        (fun n => (LayoutNode.box n).content.y)).take 2 =
      [pb.content.y + y + inlineTopOffset c1 pb.content.width,
       pb.content.y + y + inlineTopOffset c1 pb.content.width] := by
  rcases h1 with h1 | h1 <;> rcases h2 with h2 | h2 <;>
    simp [layoutChildrenAux, h1, h2, layoutInlineBlock_content_y, hoff]

/-- C10 witness: two inline-block spans with `margin: 4px` in an
`800`-wide parent both start at `y = 4`. -/
theorem C10_witness :
    ((layoutChildrenAux [C10a, C10a] C10parent 0).map
        (fun n => (LayoutNode.box n).content.y)).take 2 =
      [C10parent.content.y + 0 + inlineTopOffset C10a C10parent.content.width,
       C10parent.content.y + 0 + inlineTopOffset C10a C10parent.content.width] :=
  C10_consecutive_inline_same_y C10a C10a [] C10parent 0 (by decide) (by decide) rfl

theorem compareSpecificity_self (s : Specificity) : compareSpecificity s s = 0 := by
  simp [compareSpecificity]

theorem compareSpecificity_flip {x y : Specificity} (h : compareSpecificity x y ≤ 0) :
    compareSpecificity y x ≥ 0 := by
  unfold compareSpecificity at h ⊢
  split_ifs at h ⊢ <;> omega

theorem specsAtMost_set {st : Compute.StyleState} {σ τ : Specificity} {k v : String}
    (h : specsAtMost st σ) (hτ : compareSpecificity σ τ ≥ 0) :
    specsAtMost ⟨setKey st.styles k v, setKey st.specs k τ⟩ σ := by
  intro q s hq
  simp only [setKey] at hq
  by_cases hk : q = k
  · rw [if_pos hk] at hq
    cases hq
    exact hτ
  · rw [if_neg hk] at hq
    exact h q s hq

theorem specsAtMost_applyDeclarations {st : Compute.StyleState} {σ τ : Specificity}
    {decls : List Declaration} (h : specsAtMost st σ) (hτ : compareSpecificity σ τ ≥ 0) :
    specsAtMost (Compute.applyDeclarations st decls τ) σ := by
  induction decls generalizing st with
  | nil => exact h
  | cons d ds ih =>
    show specsAtMost (Compute.applyDeclarations _ ds τ) σ
    apply ih
    cases hsp : st.specs d.property with
    | none =>
      simp only [hsp]
      exact specsAtMost_set h hτ
    | some ex =>
      simp only [hsp]
      split
      · exact specsAtMost_set h hτ
      · exact h

theorem applyDeclarations_styles_last {st : Compute.StyleState} {σ : Specificity}
    (decls : List Declaration) (p : String) (h : specsAtMost st σ) :
    (Compute.applyDeclarations st decls σ).styles p =
      match lastDeclValue decls p with
      | some v => some v
      | Option.none => st.styles p := by
  induction decls generalizing st with
  | nil => simp [Compute.applyDeclarations, lastDeclValue]
  | cons d ds ih =>
    have hred : Compute.applyDeclarations st (d :: ds) σ =
        Compute.applyDeclarations
          (match st.specs d.property with
            | Option.none =>
              (⟨setKey st.styles d.property d.value, setKey st.specs d.property σ⟩ :
                Compute.StyleState)
            | some existingSpec =>
              if compareSpecificity σ existingSpec ≥ 0 then
                ⟨setKey st.styles d.property d.value, setKey st.specs d.property σ⟩
              else st) ds σ := rfl
    have hstep : (match st.specs d.property with
        | Option.none =>
          (⟨setKey st.styles d.property d.value, setKey st.specs d.property σ⟩ :
            Compute.StyleState)
        | some existingSpec =>
          if compareSpecificity σ existingSpec ≥ 0 then
            ⟨setKey st.styles d.property d.value, setKey st.specs d.property σ⟩
          else st) =
        (⟨setKey st.styles d.property d.value, setKey st.specs d.property σ⟩ :
          Compute.StyleState) := by
      cases hsp : st.specs d.property with
      | none => rfl
      | some ex => exact if_pos (h d.property ex hsp)
    rw [hred, hstep]
    have hσσ : compareSpecificity σ σ ≥ 0 := by rw [compareSpecificity_self]
    rw [ih (specsAtMost_set h hσσ)]
    cases hld : lastDeclValue ds p with
    | some v => simp [lastDeclValue, hld]
    | none =>
      simp only [lastDeclValue, hld, setKey]
      by_cases hpd : p = d.property
      · rw [if_pos hpd, if_pos (hpd.symm)]
      · rw [if_neg hpd, if_neg (fun hh => hpd hh.symm)]


theorem mem_insertAfterLe {α : Type} {cmp : α → α → ℤ} {x a : α} {l : List α} :
    a ∈ insertAfterLe cmp x l ↔ a = x ∨ a ∈ l := by
  induction l with
  | nil => simp [insertAfterLe]
  | cons y ys ih =>
    unfold insertAfterLe
    split
    · simp [ih]
      tauto
    · simp

theorem mem_jsSort {α : Type} {cmp : α → α → ℤ} {a : α} {l : List α}
    (h : a ∈ jsSort cmp l) : a ∈ l := by
  have H : ∀ (l acc : List α),
      a ∈ l.foldl (fun acc x => insertAfterLe cmp x acc) acc → a ∈ acc ∨ a ∈ l := by
    intro l
    induction l with
    | nil => intro acc hm; exact Or.inl hm
    | cons x xs ih =>
      intro acc hm
      rcases ih (insertAfterLe cmp x acc) hm with hm' | hm'
      · rcases mem_insertAfterLe.mp hm' with hm'' | hm''
        · right; simp [hm'']
        · left; exact hm''
      · right; simp [hm']
  rcases H l [] h with h' | h'
  · simp at h'
  · exact h'

theorem mem_getMatchingRules {node : DOMNode} {stylesheet : Stylesheet}
    {rs : Rule × Specificity} (h : rs ∈ Compute.getMatchingRules node stylesheet) :
    rs.1 ∈ stylesheet.rules ∧ rs.2 = calculateCombinedSpecificity rs.1.selectors := by
  unfold Compute.getMatchingRules at h
  rw [List.mem_filterMap] at h
  obtain ⟨r, hr, hf⟩ := h
  split at hf
  · cases hf
    exact ⟨hr, rfl⟩
  · cases hf

theorem specsAtMost_foldl {β : Type} {f : Compute.StyleState → β → Compute.StyleState}
    {l : List β} {st : Compute.StyleState} {σ : Specificity} (h : specsAtMost st σ)
    (hf : ∀ st b, b ∈ l → specsAtMost st σ → specsAtMost (f st b) σ) :
    specsAtMost (l.foldl f st) σ := by
  induction l generalizing st with
  | nil => exact h
  | cons b bs ih =>
    exact ih (hf st b (by simp) h) (fun st' b' hb' => hf st' b' (by simp [hb']))

theorem specsAtMost_applyGlobalDefaults {st : Compute.StyleState} {σ : Specificity}
    (h : specsAtMost st σ) (h0 : compareSpecificity σ ⟨0, 0, 0⟩ ≥ 0) :
    specsAtMost (Compute.applyGlobalDefaults st) σ := by
  unfold Compute.applyGlobalDefaults
  exact specsAtMost_foldl h (fun st b _ hst => specsAtMost_set hst h0)

theorem specsAtMost_applyInherited {st : Compute.StyleState} {σ : Specificity}
    {parentStyles : Option (String → Option String)} (h : specsAtMost st σ)
    (h0 : compareSpecificity σ ⟨0, 0, 0⟩ ≥ 0) :
    specsAtMost (Compute.applyInherited st parentStyles) σ := by
  unfold Compute.applyInherited
  cases parentStyles with
  | none => exact h
  | some ps =>
    apply specsAtMost_foldl h
    intro st prop _ hst
    cases ps prop with
    | none => exact hst
    | some parentValue =>
      simp only []
      split
      · exact specsAtMost_set hst h0
      · exact hst

theorem specsAtMost_applyTagDefaults {st : Compute.StyleState} {σ : Specificity}
    {node : DOMNode} (h : specsAtMost st σ) (h0 : compareSpecificity σ ⟨0, 0, 0⟩ ≥ 0) :
    specsAtMost (Compute.applyTagDefaults st node) σ := by
  cases node with
  | element tagName attributes children =>
    simp only [Compute.applyTagDefaults]
    by_cases ht : tagName ≠ ""
    · rw [if_pos ht]
      exact specsAtMost_foldl h (fun st b _ hst => specsAtMost_set hst h0)
    · rw [if_neg ht]
      exact h
  | text c => exact h
  | comment c => exact h
  | document c => exact h

theorem specsAtMost_applyMatchedRules {st : Compute.StyleState} {node : DOMNode}
    {stylesheet : Stylesheet} (h : specsAtMost st ⟨1, 0, 0⟩)
    (hrules : ∀ r ∈ stylesheet.rules,
      compareSpecificity (calculateCombinedSpecificity r.selectors) ⟨1, 0, 0⟩ ≤ 0) :
    specsAtMost (Compute.applyMatchedRules st node stylesheet) ⟨1, 0, 0⟩ := by
  unfold Compute.applyMatchedRules
  apply specsAtMost_foldl h
  intro st rs hmem hst
  obtain ⟨hr, hspec⟩ := mem_getMatchingRules (mem_jsSort hmem)
  exact specsAtMost_applyDeclarations hst
    (compareSpecificity_flip (hspec ▸ hrules rs.1 hr))

/-- C2 (amended): inline `style` declarations, applied last with the
synthetic specificity `(1, 0, 0)`, determine the resolved value of a
property whenever every rule of the stylesheet has combined specificity
`≤ (1, 0, 0)` (componentwise sum over its comma-separated selector
list); the surviving value is that of the last inline declaration for
the property.  (Without the bound on rule specificity the claim fails:
see the counterexample, where a two-id selector list sums to
`(2, 0, 0)` and beats the inline declaration.)  Every node styled by
`styleTree` gets its map from `computeNodeStyles`, so this covers every
element of every styled tree. -/
theorem C2_inline_override (node : DOMNode) (stylesheet : Stylesheet)
    (parentStyles : Option (String → Option String)) (attr p v : String)
    (hattr : mapGet (DOMNode.attrs node) "style" = some attr)
    (hne : attr ≠ "")
    (hval : lastDeclValue (Compute.parseInlineStyles attr) p = some v)
    (hrules : ∀ r ∈ stylesheet.rules,
      compareSpecificity (calculateCombinedSpecificity r.selectors) ⟨1, 0, 0⟩ ≤ 0) :
    Compute.computeNodeStyles node stylesheet parentStyles p = some v := by
  have h0 : compareSpecificity (⟨1, 0, 0⟩ : Specificity) ⟨0, 0, 0⟩ ≥ 0 := by decide
  have hempty : specsAtMost ⟨fun _ => Option.none, fun _ => Option.none⟩ ⟨1, 0, 0⟩ := by
    intro q s hq
    cases hq
  have hpre : specsAtMost
      (Compute.applyMatchedRules
        (Compute.applyTagDefaults
          (Compute.applyInherited (Compute.applyGlobalDefaults
            ⟨fun _ => Option.none, fun _ => Option.none⟩) parentStyles) node)
        node stylesheet) ⟨1, 0, 0⟩ :=
    specsAtMost_applyMatchedRules
      (specsAtMost_applyTagDefaults
        (specsAtMost_applyInherited (specsAtMost_applyGlobalDefaults hempty h0) h0) h0)
      hrules
  simp only [Compute.computeNodeStyles, Compute.applyInline, hattr]
  rw [if_pos hne]
  rw [applyDeclarations_styles_last _ p hpre, hval]


theorem C2_witness :
    Compute.computeNodeStyles C2wdom C2wsheet Option.none "color" = some "purple" :=
  C2_inline_override C2wdom C2wsheet Option.none "color: blue; color: purple" "color" "purple"
    (by decide) (by decide) (by decide) (by decide)


end CookieBrowser
